import Mathlib

set_option maxRecDepth 100000

/-!
Verification of the tvh-pulsar protocol client (Go) against its
natural-language specification, via a shallow embedding of the Go
sources (`client.go`, `encoding.go`, `io.go`) in Lean 4.

Bytes are modelled as `Nat` values (< 256 where the source guarantees
it), machine integers as `Nat`/`Int` with explicit `% 2^w` at the
points where the Go code truncates, and fallible Go code as
`Except GoErr`/`Option GoErr` values.  IEEE-754 float samples are
carried as their raw 32/64-bit little-endian bit patterns: the client
never computes with them, it only transports and regroups bytes.
-/

deriving instance DecidableEq for Except

/-- The error outcomes of the embedded Go code.  The Go sources use
distinguishable sentinel errors (`ErrTooShort`, `ErrCRC`,
`ErrInvalidFrame`, …), wrapped errors from `fmt.Errorf`
(argument-validation failures, tagged here by site), `strconv`
number-parsing errors, `io` errors from `binary.Read`, runtime panics
from out-of-range slice indexing, and transport failures (timeouts and
injected I/O faults). -/
inductive GoErr where
  /-- `ErrTooShort` sentinel (`value too short`). -/
  | tooShort
  /-- `ErrCRC` sentinel (`crc fail`). -/
  | crcFail
  /-- `ErrInvalidFrame` sentinel. -/
  | invalidFrame
  /-- `ErrWriteFail` sentinel. -/
  | writeFail
  /-- `ProtocolError` carrying the device-reported error code byte. -/
  | protocolErr (code : Nat)
  /-- `fmt.Errorf("worng function in response")`. -/
  | wrongFunction
  /-- argument-validation errors from `fmt.Errorf` in `validateChannels`:
  tag 0 = empty channel list, tag 1 = zero channel, tag 2 = channel above
  `maxChanNum`. -/
  | argErr (tag : Nat)
  /-- a transport-level I/O failure (timeout / injected fault). -/
  | ioErr (tag : Nat)
  /-- `strconv.ErrRange`. -/
  | rangeErr
  /-- `strconv.ErrSyntax`. -/
  | syntaxErr
  /-- `io.EOF` as returned by `binary.Read` on an empty source. -/
  | eofErr
  /-- `io.ErrUnexpectedEOF` as returned by `binary.Read` on a source
  holding some but not all of the needed bytes. -/
  | unexpectedEOF
  /-- a Go runtime panic (out-of-range slice index). -/
  | panicErr
  deriving DecidableEq, Repr

/-! ### Byte-order helpers (`encoding/binary`) -/

/-- `binary.BigEndian.Uint32` on the first four bytes of a list. -/
def be32 (l : List Nat) : Nat :=
  l.getD 0 0 * 16777216 + l.getD 1 0 * 65536 + l.getD 2 0 * 256 + l.getD 3 0

/-- `binary.BigEndian.Uint16` on the first two bytes of a list. -/
def be16 (l : List Nat) : Nat :=
  l.getD 0 0 * 256 + l.getD 1 0

/-- `binary.LittleEndian.Uint16` on the first two bytes of a list. -/
def le16 (l : List Nat) : Nat :=
  l.getD 0 0 + l.getD 1 0 * 256

/-- `binary.LittleEndian.Uint32` on the first four bytes of a list. -/
def le32 (l : List Nat) : Nat :=
  l.getD 0 0 + l.getD 1 0 * 256 + l.getD 2 0 * 65536 + l.getD 3 0 * 16777216

/-- `binary.LittleEndian.Uint64` on the first eight bytes of a list. -/
def le64 (l : List Nat) : Nat :=
  le32 l + le32 (l.drop 4) * 4294967296

/-- `binary.BigEndian.PutUint32`: the four big-endian bytes of a 32-bit value. -/
def be32bytes (v : Nat) : List Nat :=
  [v / 16777216 % 256, v / 65536 % 256, v / 256 % 256, v % 256]

/-- `binary.BigEndian.PutUint16`: the two big-endian bytes of a 16-bit value. -/
def be16bytes (v : Nat) : List Nat :=
  [v / 256 % 256, v % 256]

/-- `binary.LittleEndian.PutUint16`: the two little-endian bytes of a 16-bit value. -/
def le16bytes (v : Nat) : List Nat :=
  [v % 256, v / 256 % 256]

/-- `binary.LittleEndian.PutUint32`: the four little-endian bytes of a 32-bit value. -/
def le32bytes (v : Nat) : List Nat :=
  [v % 256, v / 256 % 256, v / 65536 % 256, v / 16777216 % 256]

/-- `binary.LittleEndian.Uint32` with Go's bounds check: it panics when
fewer than four bytes are supplied. -/
def uint32le (l : List Nat) : Except GoErr Nat :=
  if l.length < 4 then .error .panicErr else .ok (le32 l)

/-- `binary.LittleEndian.Uint64` with Go's bounds check: it panics when
fewer than eight bytes are supplied. -/
def uint64le (l : List Nat) : Except GoErr Nat :=
  if l.length < 8 then .error .panicErr else .ok (le64 l)

/-! ### Checksum Engine (`crc` in client.go)

`type crc uint16`; `reset` sets `0xffff`; `update` folds each byte by
XOR into the running value followed by eight right-shift steps with
polynomial `0xA001`. -/

/-- One inner iteration of `crc.update`: if the low bit is set, shift
right and XOR with `0xA001`, else just shift right. -/
def crcStep (c : Nat) : Nat :=
  if c % 2 = 1 then (c / 2) ^^^ 0xA001 else c / 2

/-- Folding a single byte into the running value: `*c ^= crc(b)`
followed by eight `crcStep` iterations. -/
def crcByte (c b : Nat) : Nat :=
  crcStep^[8] (c ^^^ b)

/-- `crc.update`: folds every byte of `data` into the running value. -/
def crcUpdate (c : Nat) (data : List Nat) : Nat :=
  data.foldl crcByte c

/-- `crc.reset`: the initial running value. -/
def crcReset : Nat := 0xffff

/-- `reset` followed by `update` over a whole byte sequence. -/
def crcOf (data : List Nat) : Nat :=
  crcUpdate crcReset data

/-- `checkCrc` (client.go): recomputes the checksum over all but the
trailing two bytes and compares with the little-endian 16-bit value
stored there. -/
def checkCrc (response : List Nat) : Option GoErr :=
  if response.length ≤ 2 then some .tooShort
  else
    let ln := response.length - 2
    let check := crcOf (response.take ln)
    let tst := le16 (response.drop ln)
    if tst ≠ check then some .crcFail else none

/-- C1: the checksum engine is the bit-reflected CRC-16/MODBUS:
`reset` yields `0xFFFF`, `update` folds each byte by XOR followed by
eight right-shift steps with polynomial `0xA001`, and the three
specification test vectors (hex `0207`, `01040040000a`, and
`0104143a11e6ee3b16c44d39e24257381730ba3d862437`) evaluate to
`0x1241`, `0xD971` and `0xAED0`.  The update is a pure fold, hence a
deterministic function of the input bytes. -/
theorem crc_modbus_vectors :
    crcReset = 0xFFFF ∧
    (∀ c b bs, crcUpdate c (b :: bs) = crcUpdate (crcStep^[8] (c ^^^ b)) bs) ∧
    crcOf [0x02, 0x07] = 0x1241 ∧
    crcOf [0x01, 0x04, 0x00, 0x40, 0x00, 0x0a] = 0xD971 ∧
    crcOf [0x01, 0x04, 0x14, 0x3a, 0x11, 0xe6, 0xee, 0x3b, 0x16, 0xc4,
      0x4d, 0x39, 0xe2, 0x42, 0x57, 0x38, 0x17, 0x30, 0xba, 0x3d,
      0x86, 0x24, 0x37] = 0xAED0 := by
  refine ⟨rfl, fun c b bs => rfl, by decide, by decide, by decide⟩

/-! ### Protocol Codec: Device Timestamp (`sysTime` in encoding.go)

The repository stores device timestamps in a Go `time.Time`.  `GoTime`
models the calendar components the code reads back out
(`Year`/`Month`/`Day`/`Hour`/`Minute`/`Second`).  `timeDate` models
Go's `time.Date(y, mo, d, h, mi, s, 0, time.Local)` for arguments
inside the calendar range, where Go's normalisation is the identity
and the local-zone lookup names an existing wall-clock time: the
components are stored as given and the accessors return them
unchanged.  (Out-of-range normalisation and DST-gap adjustment of the
Go standard library are outside this model; every claim about
timestamps here is conditioned on calendar-valid inputs.) -/

structure GoTime where
  year : Nat
  month : Nat
  day : Nat
  hour : Nat
  minute : Nat
  second : Nat
  deriving DecidableEq, Repr

/-- model of `time.Date(year, month, day, hour, minute, second, 0, time.Local)`
for in-calendar-range arguments (see the section comment). -/
def timeDate (year month day hour minute second : Nat) : GoTime :=
  ⟨year, month, day, hour, minute, second⟩

/-- Go `isLeap` (time package): year divisible by 4 and not by 100
unless also by 400. -/
def isLeap (y : Nat) : Bool :=
  y % 4 = 0 && (y % 100 ≠ 0 || y % 400 = 0)

/-- days in a month of a given year, per the Gregorian calendar used
by Go's time package. -/
def daysInMonth (y m : Nat) : Nat :=
  if m = 2 then (if isLeap y then 29 else 28)
  else if m = 4 ∨ m = 6 ∨ m = 9 ∨ m = 11 then 30
  else 31

/-- `sysTime.UnmarshalBinary` (encoding.go): fewer than 6 bytes fails
with `ErrTooShort`; otherwise the six bytes
`[year-2000, month, day, hour, minute, second]` are fed to `time.Date`
in the local zone. -/
def sysTimeUnmarshalBinary (data : List Nat) : Except GoErr GoTime :=
  if data.length < 6 then .error .tooShort
  else .ok (timeDate (2000 + data.getD 0 0) (data.getD 1 0) (data.getD 2 0)
    (data.getD 3 0) (data.getD 4 0) (data.getD 5 0))

/-- `sysTime.MarshalBinary` (encoding.go): emits
`[byte(Year()-2000), byte(Month()), byte(Day()), byte(Hour()), byte(Minute()), byte(Second())]`;
each `byte(·)` conversion truncates the Go `int` modulo 256 (and
`Year()-2000` would wrap below year 2000, hence the truncated
subtraction composed with `% 256` mirrors the `int` → `byte` path for
the years representable here). -/
def sysTimeMarshalBinary (t : GoTime) : List Nat :=
  [(t.year - 2000) % 256, t.month % 256, t.day % 256,
   t.hour % 256, t.minute % 256, t.second % 256]

/-- a 6-byte timestamp input is valid when every byte is a byte, the
month is 1–12, the day is calendar-valid for that month, and
hour/minute/second are in range (such a local time exists in the
DST-free model). -/
def validSysTimeBytes (b : List Nat) : Prop :=
  b.length = 6 ∧ (∀ x ∈ b, x < 256) ∧
  1 ≤ b.getD 1 0 ∧ b.getD 1 0 ≤ 12 ∧
  1 ≤ b.getD 2 0 ∧ b.getD 2 0 ≤ daysInMonth (2000 + b.getD 0 0) (b.getD 1 0) ∧
  b.getD 3 0 < 24 ∧ b.getD 4 0 < 60 ∧ b.getD 5 0 < 60

/-- every month length used by the Gregorian calendar is at most 31. -/
theorem daysInMonth_le (y m : Nat) : daysInMonth y m ≤ 31 := by
  unfold daysInMonth
  split
  · split <;> omega
  · split <;> omega

/-- C6: for every valid 6-byte input, Device Timestamp unmarshal
followed by marshal returns the identical 6 bytes. -/
theorem sysTime_roundtrip (b : List Nat) (h : validSysTimeBytes b) :
    (sysTimeUnmarshalBinary b).map sysTimeMarshalBinary = .ok b := by
  obtain ⟨hlen, hbytes, h1a, h1b, h2a, h2b, h3, h4, h5⟩ := h
  match b, hlen with
  | [b0, b1, b2, b3, b4, b5], _ =>
    have hb0 : b0 < 256 := hbytes b0 (by simp)
    simp only [List.getD_cons_zero, List.getD_cons_succ] at h1a h1b h2a h2b h3 h4 h5
    have hday : b2 ≤ 31 :=
      le_trans h2b (daysInMonth_le (2000 + b0) b1)
    simp only [sysTimeUnmarshalBinary, sysTimeMarshalBinary, timeDate,
      List.getD_cons_zero, List.getD_cons_succ, List.length_cons,
      List.length_nil, Except.map]
    norm_num
    omega

/-- witness for C6 at the concrete test-vector input `[22,2,3,4,5,6]`
(2022-02-03 04:05:06). -/
theorem sysTime_roundtrip_witness :
    validSysTimeBytes [22, 2, 3, 4, 5, 6] ∧
    (sysTimeUnmarshalBinary [22, 2, 3, 4, 5, 6]).map sysTimeMarshalBinary =
      .ok [22, 2, 3, 4, 5, 6] := by
  have hv : validSysTimeBytes [22, 2, 3, 4, 5, 6] := by
    unfold validSysTimeBytes
    refine ⟨rfl, ?_, by decide, by decide, by decide, by decide, by decide, by decide, by decide⟩
    intro x hx
    fin_cases hx <;> decide
  exact ⟨hv, sysTime_roundtrip [22, 2, 3, 4, 5, 6] hv⟩

/-! ### Protocol Codec: Archive Record (`ChannelLog.UnmarshalBinary` in encoding.go) -/

/-- the decoded fields of a `ChannelLog` produced by `UnmarshalBinary`
(the `Type` field is set later by the caller, not by the decoder);
float samples are carried as their 32-bit little-endian bit patterns. -/
structure ChannelLogV where
  id : Nat
  start : GoTime
  values : List Nat
  deriving DecidableEq, Repr

/-- the float-reading loop of `ChannelLog.UnmarshalBinary`: while the
buffer is non-empty, `binary.Read` a 4-byte little-endian float; a
non-empty remainder of fewer than 4 bytes makes `binary.Read` return
`io.ErrUnexpectedEOF`. -/
def readFloats : List Nat → Except GoErr (List Nat)
  | [] => .ok []
  | a :: b :: c :: d :: rest => (readFloats rest).map (fun vs => le32 [a, b, c, d] :: vs)
  | _ => .error .unexpectedEOF

/-- reference chunking of a byte sequence into 4-byte little-endian
words, dropping any partial trailing group. -/
def le32chunks : List Nat → List Nat
  | a :: b :: c :: d :: rest => le32 [a, b, c, d] :: le32chunks rest
  | [] => []
  | [_] => []
  | [_, _] => []
  | [_, _, _] => []

/-- `ChannelLog.UnmarshalBinary` (encoding.go): requires at least 10
bytes (else `ErrTooShort`), reads the little-endian 32-bit channel id,
decodes the 6-byte timestamp from `b.Next(6)`, then loops reading
4-byte little-endian floats until the buffer is exhausted. -/
def chanLogUnmarshalBinary (data : List Nat) : Except GoErr ChannelLogV :=
  if data.length < 10 then .error .tooShort
  else
    match sysTimeUnmarshalBinary ((data.drop 4).take 6) with
    | .error e => .error e
    | .ok t =>
      match readFloats (data.drop 10) with
      | .error e => .error e
      | .ok vs => .ok ⟨le32 (data.take 4), t, vs⟩

/-- the float loop succeeds exactly on 4-divisible lengths, producing
the 4-byte little-endian words in order; otherwise it fails with the
unexpected-EOF error. -/
theorem readFloats_spec : ∀ l : List Nat,
    (l.length % 4 = 0 → readFloats l = .ok (le32chunks l)) ∧
    (l.length % 4 ≠ 0 → readFloats l = .error .unexpectedEOF)
  | [] => ⟨fun _ => rfl, fun h => absurd rfl h⟩
  | [_] => ⟨fun h => by simp at h, fun _ => rfl⟩
  | [_, _] => ⟨fun h => by simp at h, fun _ => rfl⟩
  | [_, _, _] => ⟨fun h => by simp at h, fun _ => rfl⟩
  | a :: b :: c :: d :: rest => by
    have ih := readFloats_spec rest
    constructor
    · intro h
      have hr : rest.length % 4 = 0 := by
        simp only [List.length_cons] at h; omega
      simp [readFloats, le32chunks, ih.1 hr, Except.map]
    · intro h
      have hr : rest.length % 4 ≠ 0 := by
        simp only [List.length_cons] at h ⊢; omega
      simp [readFloats, ih.2 hr, Except.map]

/-- the number of whole 4-byte words produced by the chunker. -/
theorem le32chunks_length : ∀ l : List Nat, (le32chunks l).length = l.length / 4
  | [] => rfl
  | [_] => by simp [le32chunks]
  | [_, _] => by simp [le32chunks]
  | [_, _, _] => by simp [le32chunks]
  | a :: b :: c :: d :: rest => by
    have ih := le32chunks_length rest
    simp only [le32chunks, List.length_cons, ih]
    omega

/-- reading an element of a `drop`-then-`take` window addresses the
underlying list at the shifted index. -/
theorem getD_drop_take (l : List Nat) (m t i : Nat) (h : i < t) :
    ((l.drop m).take t).getD i 0 = l.getD (m + i) 0 := by
  simp [List.getD_eq_getElem?_getD, List.getElem?_take, h, List.getElem?_drop]

/-- counterexample to C4 as stated: on a 13-byte input (a trailing
partial float of 3 bytes) the decoder fails with the unexpected-EOF
error of `binary.Read`, which is a different error value than the
"too short" sentinel the claim names. -/
theorem chanLog_partial_float_not_tooShort :
    chanLogUnmarshalBinary [1, 0, 0, 0, 22, 9, 5, 13, 0, 0, 7, 7, 7] =
      .error .unexpectedEOF ∧
    (Except.error GoErr.unexpectedEOF : Except GoErr ChannelLogV) ≠
      .error .tooShort := by
  constructor
  · decide
  · decide

/-- C4 (amended): `ChannelLog.UnmarshalBinary` fails with the
"too short" sentinel on inputs shorter than 10 bytes; on a trailing
partial float of 1–3 bytes it fails with the unexpected-EOF error of
`binary.Read` (not the "too short" sentinel); and on every input of
length `10 + 4k` it succeeds, yielding the little-endian 32-bit
channel id, the timestamp decoded from bytes 4–9, and exactly `k`
little-endian 32-bit float samples in input order. -/
theorem chanLog_unmarshal_amended (data : List Nat) :
    (data.length < 10 → chanLogUnmarshalBinary data = .error .tooShort) ∧
    (10 ≤ data.length → (data.length - 10) % 4 ≠ 0 →
      chanLogUnmarshalBinary data = .error .unexpectedEOF) ∧
    (∀ k, data.length = 10 + 4 * k →
      chanLogUnmarshalBinary data =
        .ok ⟨le32 (data.take 4),
          timeDate (2000 + data.getD 4 0) (data.getD 5 0) (data.getD 6 0)
            (data.getD 7 0) (data.getD 8 0) (data.getD 9 0),
          le32chunks (data.drop 10)⟩ ∧
      (le32chunks (data.drop 10)).length = k) := by
  refine ⟨fun h => by simp [chanLogUnmarshalBinary, h], ?_, ?_⟩
  · intro h10 hmod
    have hts : sysTimeUnmarshalBinary ((data.drop 4).take 6) =
        .ok (timeDate (2000 + data.getD 4 0) (data.getD 5 0) (data.getD 6 0)
          (data.getD 7 0) (data.getD 8 0) (data.getD 9 0)) := by
      have hlen : ((data.drop 4).take 6).length = 6 := by
        simp [List.length_take, List.length_drop]; omega
      unfold sysTimeUnmarshalBinary
      rw [hlen, if_neg (by omega : ¬ (6 : Nat) < 6),
        getD_drop_take data 4 6 0 (by omega), getD_drop_take data 4 6 1 (by omega),
        getD_drop_take data 4 6 2 (by omega), getD_drop_take data 4 6 3 (by omega),
        getD_drop_take data 4 6 4 (by omega), getD_drop_take data 4 6 5 (by omega)]
    have hrf : readFloats (data.drop 10) = .error .unexpectedEOF := by
      refine (readFloats_spec (data.drop 10)).2 ?_
      simp only [List.length_drop]
      omega
    simp [chanLogUnmarshalBinary, Nat.not_lt_of_le h10, hts, hrf]
  · intro k hk
    have h10 : 10 ≤ data.length := by omega
    have hts : sysTimeUnmarshalBinary ((data.drop 4).take 6) =
        .ok (timeDate (2000 + data.getD 4 0) (data.getD 5 0) (data.getD 6 0)
          (data.getD 7 0) (data.getD 8 0) (data.getD 9 0)) := by
      have hlen : ((data.drop 4).take 6).length = 6 := by
        simp [List.length_take, List.length_drop]; omega
      unfold sysTimeUnmarshalBinary
      rw [hlen, if_neg (by omega : ¬ (6 : Nat) < 6),
        getD_drop_take data 4 6 0 (by omega), getD_drop_take data 4 6 1 (by omega),
        getD_drop_take data 4 6 2 (by omega), getD_drop_take data 4 6 3 (by omega),
        getD_drop_take data 4 6 4 (by omega), getD_drop_take data 4 6 5 (by omega)]
    have hrf : readFloats (data.drop 10) = .ok (le32chunks (data.drop 10)) := by
      refine (readFloats_spec (data.drop 10)).1 ?_
      simp only [List.length_drop]
      omega
    refine ⟨by simp [chanLogUnmarshalBinary, Nat.not_lt_of_le h10, hts, hrf], ?_⟩
    rw [le32chunks_length]
    simp only [List.length_drop]
    omega

/-- witness for C4's amended theorem at a concrete 14-byte input
(one float sample). -/
theorem chanLog_unmarshal_amended_witness :
    chanLogUnmarshalBinary [1, 0, 0, 0, 22, 9, 5, 13, 0, 0, 6, 137, 44, 68] =
      .ok ⟨1, timeDate 2022 9 5 13 0 0, [0x442C8906]⟩ ∧
    (le32chunks ([1, 0, 0, 0, 22, 9, 5, 13, 0, 0, 6, 137, 44, 68].drop 10)).length = 1 := by
  have h := (chanLog_unmarshal_amended
    [1, 0, 0, 0, 22, 9, 5, 13, 0, 0, 6, 137, 44, 68]).2.2 1 (by decide)
  obtain ⟨h1, h2⟩ := h
  exact ⟨by rw [h1]; decide, h2⟩

/-! ### Frame Transport (`tcpConn`, `reader`, `writer`, `logger` in io.go)

The transport wraps a byte-stream connection.  The state below carries
the incoming byte stream, the bytes written to the wire, the two
per-direction diagnostic capture buffers of the `logger`, whether a
diagnostic sink is configured (`log != nil`), counters of rendered
dumps, and injectable fault outcomes for the operations that can fail
(deadline setting, writes, flushes).  A read fails when fewer bytes
than requested remain (the per-read deadline expiring); on success it
returns exactly the requested bytes. -/

structure ConnState where
  /-- whether a diagnostic sink is configured (`logger.log != nil`). -/
  hasSink : Bool
  /-- bytes still available for reading. -/
  rStream : List Nat
  /-- bytes written out to the socket. -/
  wire : List Nat
  /-- `reader`'s capture buffer (`logger.buf`). -/
  rCapture : List Nat
  /-- `writer`'s capture buffer (`logger.buf`). -/
  wCapture : List Nat
  /-- number of request dumps rendered to the sink. -/
  loggedReq : Nat
  /-- number of response dumps rendered to the sink. -/
  loggedResp : Nat
  /-- injected failure of `PrepareWrite` (deadline setting). -/
  prepareWriteErr : Option GoErr
  /-- injected failure of `PrepareRead` (deadline setting). -/
  prepareReadErr : Option GoErr
  /-- injected failure of the underlying writes. -/
  writeErr : Option GoErr
  /-- injected failure of `Flush`. -/
  flushErr : Option GoErr
  deriving DecidableEq, Repr

/-- `tcpConn.PrepareWrite`: resets the writer (discarding its capture
buffer) and sets a fresh write deadline, which can fail. -/
def connPrepareWrite (s : ConnState) : Except GoErr ConnState :=
  match s.prepareWriteErr with
  | some e => .error e
  | none => .ok { s with wCapture := [] }

/-- `tcpConn.PrepareRead`: resets the reader (discarding its capture
buffer) and sets a fresh read deadline, which can fail. -/
def connPrepareRead (s : ConnState) : Except GoErr ConnState :=
  match s.prepareReadErr with
  | some e => .error e
  | none => .ok { s with rCapture := [] }

/-- `writer.Write` (io.go): writes `p` through the buffered writer and,
when that succeeded AND a sink is configured (`err == nil && b.log != nil`),
appends `p` to the capture buffer. -/
def connWrite (p : List Nat) (s : ConnState) : Except GoErr ConnState :=
  match s.writeErr with
  | some e => .error e
  | none => .ok { s with
      wire := s.wire ++ p,
      wCapture := if s.hasSink then s.wCapture ++ p else s.wCapture }

/-- `reader.Read` (io.go): reads the requested bytes from the stream
(failing with a timeout when not enough arrive) and, when that
succeeded AND a sink is configured (`err == nil && b.log != nil`),
appends the buffer to the capture buffer. -/
def connRead (k : Nat) (s : ConnState) : Except GoErr (List Nat × ConnState) :=
  if s.rStream.length < k then .error (.ioErr 0)
  else
    let p := s.rStream.take k
    .ok (p, { s with
      rStream := s.rStream.drop k,
      rCapture := if s.hasSink then s.rCapture ++ p else s.rCapture })

/-- `tcpConn.Flush`: pushes buffered output to the wire; can fail. -/
def connFlush (s : ConnState) : Except GoErr ConnState :=
  match s.flushErr with
  | some e => .error e
  | none => .ok s

/-- `tcpConn.LogRequest` → `logger.Log`: renders the capture buffer
when a sink is configured, and always clears it. -/
def connLogRequest (s : ConnState) : ConnState :=
  { s with
    wCapture := [],
    loggedReq := if s.hasSink then s.loggedReq + 1 else s.loggedReq }

/-- `tcpConn.LogResponse` → `logger.Log`: renders the capture buffer
when a sink is configured, and always clears it. -/
def connLogResponse (s : ConnState) : ConnState :=
  { s with
    rCapture := [],
    loggedResp := if s.hasSink then s.loggedResp + 1 else s.loggedResp }

/-- a transport with no diagnostic sink configured, no pending bytes
and no injected faults. -/
def noSinkConn : ConnState :=
  ⟨false, [], [], [], [], 0, 0, none, none, none, none⟩

/-- counterexample to C5 as stated: with no diagnostic sink configured
(`log == nil`), a successful write of `[1,2,3]` appends nothing to the
per-direction capture buffer — the guard `err == nil && b.log != nil`
skips the capture itself, not merely the rendering. -/
theorem conn_capture_requires_sink_cex :
    (connWrite [1, 2, 3] noSinkConn).map ConnState.wCapture = .ok [] ∧
    noSinkConn.wCapture ++ [1, 2, 3] ≠ ([] : List Nat) := by
  exact ⟨by decide, by decide⟩

/-- C5 (amended): a successful transport write appends the transferred
bytes to the per-direction capture buffer exactly when a diagnostic
sink is configured, and likewise for a successful read; with no sink
configured the capture buffer is left unchanged. -/
theorem conn_capture_amended (s : ConnState) (p : List Nat) (k : Nat) :
    (∀ s', connWrite p s = .ok s' →
      s'.wire = s.wire ++ p ∧
      s'.wCapture = (if s.hasSink then s.wCapture ++ p else s.wCapture)) ∧
    (∀ bs s', connRead k s = .ok (bs, s') →
      bs = s.rStream.take k ∧
      s'.rCapture = (if s.hasSink then s.rCapture ++ bs else s.rCapture)) := by
  constructor
  · intro s' h
    unfold connWrite at h
    match hw : s.writeErr with
    | some e => rw [hw] at h; exact absurd h (by simp)
    | none =>
      rw [hw] at h
      injection h with h
      subst h
      exact ⟨rfl, rfl⟩
  · intro bs s' h
    unfold connRead at h
    split at h
    · exact absurd h (by simp)
    · simp only [Except.ok.injEq, Prod.mk.injEq] at h
      obtain ⟨rfl, rfl⟩ := h
      exact ⟨rfl, rfl⟩

/-- witness for C5's amended theorem: concrete write and read on a
transport with a sink configured. -/
theorem conn_capture_amended_witness :
    (connWrite [7, 8] { noSinkConn with hasSink := true } =
      .ok { noSinkConn with hasSink := true, wire := [7, 8], wCapture := [7, 8] } →
      ({ noSinkConn with hasSink := true, wire := [7, 8], wCapture := [7, 8] } : ConnState).wire =
        ({ noSinkConn with hasSink := true } : ConnState).wire ++ [7, 8]) ∧
    ({ noSinkConn with hasSink := true, wire := [7, 8], wCapture := [7, 8] } : ConnState).wCapture = [7, 8] := by
  have h := (conn_capture_amended { noSinkConn with hasSink := true } [7, 8] 0).1
    { noSinkConn with hasSink := true, wire := [7, 8], wCapture := [7, 8] } (by decide)
  exact ⟨fun _ => h.1, by rw [h.2]; decide⟩

/-! ### Command Orchestrator state (`Client` in client.go) -/

/-- `Client`: the bound device address and the message-id counter
(`ids`), both 32-bit. -/
structure Client where
  address : Nat
  ids : Nat
  deriving DecidableEq, Repr

/-- the counter after `atomic.AddUint32(&c.ids, 1)`. -/
def nextIdState (ids : Nat) : Nat :=
  (ids + 1) % 4294967296

/-- the id returned by `Client.nextId`:
`uint16(c.ids % math.MaxUint16) + 1` evaluated after the increment;
`math.MaxUint16 = 65535`, the `uint16` conversion truncates modulo
65536, and the final `+ 1` is 16-bit addition. -/
def nextIdVal (ids : Nat) : Nat :=
  ((((ids + 1) % 4294967296) % 65535) % 65536 + 1) % 65536

/-- `Client.nextId`: increments the counter and derives the message id. -/
def Client.nextId (c : Client) : Nat × Client :=
  (nextIdVal c.ids, { c with ids := nextIdState c.ids })

/-- the two 16-bit truncations in `nextId` are identities: the id is
the incremented counter reduced modulo 65535, plus one. -/
theorem nextIdVal_eq (ids : Nat) :
    nextIdVal ids = ((ids + 1) % 4294967296) % 65535 + 1 := by
  unfold nextIdVal
  omega

/-- C7: from every 32-bit counter state, `nextId` emits an id in
1..65535 (never 0), and the allocation following the one that yielded
the maximum 16-bit id wraps back to 1. -/
theorem nextId_range (ids : Nat) (h : ids < 4294967296) :
    1 ≤ nextIdVal ids ∧ nextIdVal ids ≤ 65535 ∧
    (nextIdVal ids = 65535 → nextIdVal (nextIdState ids) = 1) := by
  rw [nextIdVal_eq, nextIdVal_eq]
  unfold nextIdState
  refine ⟨by omega, by omega, ?_⟩
  intro hmax
  set a := (ids + 1) % 4294967296 with ha
  have halt : a < 4294967296 := Nat.mod_lt _ (by omega)
  have hm : a % 65535 = 65534 := by omega
  have hne : a ≠ 4294967295 := by
    intro hc
    rw [hc] at hm
    exact absurd hm (by decide)
  have hlt : a + 1 < 4294967296 := by omega
  rw [Nat.mod_eq_of_lt hlt]
  omega

/-- witness for C7 at the initial counter state `math.MaxUint32`
(first id is 1) and at the state 65533 whose allocation yields 65535
and whose successor allocation yields 1. -/
theorem nextId_range_witness :
    nextIdVal 4294967295 = 1 ∧
    (1 ≤ nextIdVal 4294967295 ∧ nextIdVal 4294967295 ≤ 65535) ∧
    nextIdVal 65533 = 65535 ∧ nextIdVal (nextIdState 65533) = 1 := by
  refine ⟨by decide, ?_, by decide, ?_⟩
  · have h := nextId_range 4294967295 (by decide)
    exact ⟨h.1, h.2.1⟩
  · exact (nextId_range 65533 (by decide)).2.2 (by decide)

/-! ### `Client.writeMessage` (client.go)

Computes the request checksum, prepares the write, writes the frame
then the two little-endian checksum bytes, flushes, and logs the
request only when the flush succeeded.  The current source ends with
`return nil`, so the flush outcome itself is never propagated. -/

def writeMessage (c : Client) (request : List Nat) (s : ConnState) : Except GoErr ConnState :=
  let check := crcOf request
  match connPrepareWrite s with
  | .error e => .error e
  | .ok s1 =>
    match connWrite request s1 with
    | .error e => .error e
    | .ok s2 =>
      match connWrite (le16bytes check) s2 with
      | .error e => .error e
      | .ok s3 =>
        match connFlush s3 with
        | .error _ => .ok s3
        | .ok s4 => .ok (connLogRequest s4)

/-- a transport (sink configured) whose `Flush` fails. -/
def flushFailConn : ConnState :=
  { noSinkConn with hasSink := true, flushErr := some (.ioErr 5) }

/-- C2 divergence, evaluated at the failing input: on a transport whose
`Flush` fails while transmitting the request frame, `writeMessage`
returns success (`nil`) instead of the flush error — the frame and
checksum bytes were handed to the buffered writer, the flush error is
dropped, and the request dump is skipped (`loggedReq` stays 0). -/
theorem writeMessage_swallows_flush_error :
    flushFailConn.flushErr = some (.ioErr 5) ∧
    (writeMessage ⟨1, 4294967295⟩ [0, 0, 0, 1] flushFailConn).map
        (fun s => (s.wire, s.loggedReq)) =
      .ok ([0, 0, 0, 1] ++ le16bytes (crcOf [0, 0, 0, 1]), 0) := by
  exact ⟨rfl, by decide⟩

/-! ### `Client.readMessage` (client.go): the receive loop

Each iteration prepares a read, reads the 6-byte header
`[address:4][function:1][totalLength:1]`, rejects a declared remainder
below 5 bytes (`ErrInvalidFrame`), reads the remainder, skips the
frame when its big-endian address differs from the bound device
address, then verifies the checksum and maps a device-reported error
frame to `ProtocolError`.  The loop is embedded with a fuel parameter;
`readMessage` supplies `stream length + 1` fuel, which the loop can
never exhaust because every iteration consumes at least 11 stream
bytes (the fuel-0 outcome is unreachable from `readMessage`). -/

/-- `l[i]` on a Go byte slice (0 when out of range, where the source
guarantees in-range access). -/
def byteAt (l : List Nat) (i : Nat) : Nat :=
  l.getD i 0

def readLoop : Nat → Client → ConnState → Except GoErr (List Nat × ConnState)
  | 0, _, _ => .error (.ioErr 1)
  | fuel + 1, c, s =>
    match connPrepareRead s with
    | .error e => .error e
    | .ok s0 =>
      match connRead 6 s0 with
      | .error e => .error e
      | .ok (hdr, s1) =>
        if byteAt hdr 5 < 11 then .error .invalidFrame
        else
          match connRead (byteAt hdr 5 - 6) s1 with
          | .error e => .error e
          | .ok (rest, s2) =>
            if be32 (hdr ++ rest) ≠ c.address then readLoop fuel c s2
            else
              match checkCrc (hdr ++ rest) with
              | some e => .error e
              | none =>
                if byteAt (hdr ++ rest) 4 = 0 then
                  .error (.protocolErr (byteAt (hdr ++ rest) 6))
                else .ok (hdr ++ rest, s2)

/-- `Client.readMessage`: runs the receive loop and logs the response
on success. -/
def readMessage (c : Client) (s : ConnState) : Except GoErr (List Nat × ConnState) :=
  match readLoop (s.rStream.length + 1) c s with
  | .error e => .error e
  | .ok (resp, s2) => .ok (resp, connLogResponse s2)

/-- reference chunking of the incoming byte stream into the
length-prefixed frames the receive loop walks: each frame declares its
total length in byte 5 (at least 11), and chunking stops at a
malformed or truncated frame. -/
def parseFramesF : Nat → List Nat → List (List Nat)
  | 0, _ => []
  | fuel + 1, stream =>
    if stream.length < 6 then []
    else if byteAt stream 5 < 11 then []
    else if stream.length < byteAt stream 5 then []
    else stream.take (byteAt stream 5) :: parseFramesF fuel (stream.drop (byteAt stream 5))

/-- frame chunking with always-sufficient fuel. -/
def parseFrames (stream : List Nat) : List (List Nat) :=
  parseFramesF (stream.length + 1) stream

/-- the chunker ignores its fuel as long as the fuel exceeds the
stream length. -/
theorem parseFramesF_fuel : ∀ (f1 f2 : Nat) (stream : List Nat),
    stream.length < f1 → stream.length < f2 →
    parseFramesF f1 stream = parseFramesF f2 stream := by
  intro f1
  induction f1 with
  | zero => intro f2 stream h1 _; omega
  | succ f1 ih =>
    intro f2 stream h1 h2
    match f2, h2 with
    | f2 + 1, _ =>
      rw [parseFramesF, parseFramesF]
      by_cases h6 : stream.length < 6
      · rw [if_pos h6, if_pos h6]
      · rw [if_neg h6, if_neg h6]
        by_cases h11 : byteAt stream 5 < 11
        · rw [if_pos h11, if_pos h11]
        · rw [if_neg h11, if_neg h11]
          by_cases hlt : stream.length < byteAt stream 5
          · rw [if_pos hlt, if_pos hlt]
          · rw [if_neg hlt, if_neg hlt]
            rw [ih f2 (stream.drop (byteAt stream 5))
              (by simp only [List.length_drop]; omega)
              (by simp only [List.length_drop]; omega)]

/-- a successful `connPrepareRead` leaves the incoming stream as it was. -/
theorem connPrepareRead_ok (s s0 : ConnState) (h : connPrepareRead s = .ok s0) :
    s0.rStream = s.rStream := by
  unfold connPrepareRead at h
  match hpr : s.prepareReadErr with
  | some e => rw [hpr] at h; exact absurd h (by simp)
  | none =>
    rw [hpr] at h
    injection h with h
    subst h
    rfl

/-- a successful `connRead` returns the first `k` stream bytes and
drops them from the stream. -/
theorem connRead_ok (k : Nat) (s : ConnState) (bs : List Nat) (s1 : ConnState)
    (h : connRead k s = .ok (bs, s1)) :
    k ≤ s.rStream.length ∧ bs = s.rStream.take k ∧ s1.rStream = s.rStream.drop k := by
  unfold connRead at h
  split at h
  · exact absurd h (by simp)
  · simp only [Except.ok.injEq, Prod.mk.injEq] at h
    obtain ⟨rfl, rfl⟩ := h
    exact ⟨by omega, rfl, rfl⟩

/-- reading a byte of a `take` window addresses the underlying list at
the same index. -/
theorem byteAt_take (l : List Nat) (t i : Nat) (h : i < t) :
    byteAt (l.take t) i = byteAt l i := by
  unfold byteAt
  simp [List.getD_eq_getElem?_getD, List.getElem?_take, h]

theorem find?_cons_true {α : Type} {p : α → Bool} {x : α} {xs : List α}
    (h : p x = true) : List.find? p (x :: xs) = some x := by
  simp [List.find?, h]

theorem find?_cons_false {α : Type} {p : α → Bool} {x : α} {xs : List α}
    (h : p x = false) : List.find? p (x :: xs) = List.find? p xs := by
  simp [List.find?, h]

/-- the receive loop, run with fuel above the stream length, delivers
only a frame bearing the bound address, namely the first
length-delimited frame of the stream whose address matches. -/
theorem readLoop_first_match : ∀ (fuel : Nat) (c : Client) (s : ConnState)
    (frame : List Nat) (s2 : ConnState),
    s.rStream.length < fuel →
    readLoop fuel c s = .ok (frame, s2) →
    be32 frame = c.address ∧
    (parseFrames s.rStream).find? (fun f => be32 f == c.address) = some frame := by
  intro fuel
  induction fuel with
  | zero => intro c s frame s2 hf _; omega
  | succ fuel ih =>
    intro c s frame s2 hf h
    rw [readLoop] at h
    split at h
    · exact absurd h (by simp)
    case _ s0 hpr =>
    have hs0 := connPrepareRead_ok s s0 hpr
    split at h
    · exact absurd h (by simp)
    case _ hdr s1 hrd1 =>
    obtain ⟨h6le, rfl, hs1⟩ := connRead_ok 6 s0 hdr s1 hrd1
    split at h
    · exact absurd h (by simp)
    case _ h11 =>
    split at h
    · exact absurd h (by simp)
    case _ rest s2x hrd2 =>
    obtain ⟨hnle, rfl, hs2⟩ := connRead_ok _ s1 rest s2x hrd2
    -- the header length byte read from the 6-byte prefix equals the
    -- stream's byte 5, and the assembled frame is the stream's prefix
    -- of that declared length
    rw [hs0] at hs1 h6le
    have hlenb : byteAt (s.rStream.take 6) 5 = byteAt s.rStream 5 :=
      byteAt_take _ 6 5 (by omega)
    rw [hs0, hlenb] at h11 hnle hs2 h
    rw [hs1] at hnle
    simp only [List.length_drop] at hnle
    push_neg at h11
    have hframe : s.rStream.take 6 ++ s1.rStream.take (byteAt s.rStream 5 - 6) =
        s.rStream.take (byteAt s.rStream 5) := by
      rw [hs1, ← List.take_add]
      congr 1
      omega
    rw [hframe] at h
    have hs2x : s2x.rStream = s.rStream.drop (byteAt s.rStream 5) := by
      rw [hs2, hs1, List.drop_drop]
      congr 1
      omega
    have hunf : parseFrames s.rStream =
        s.rStream.take (byteAt s.rStream 5) ::
          parseFrames (s.rStream.drop (byteAt s.rStream 5)) := by
      rw [parseFrames, parseFramesF]
      rw [if_neg (by omega), if_neg (by omega), if_neg (by omega)]
      congr 1
      exact parseFramesF_fuel _ _ _ (by simp only [List.length_drop]; omega)
        (by simp only [List.length_drop]; omega)
    split at h
    case _ hne =>
      -- foreign address: the frame is skipped and the loop continues
      have hrec := ih c s2x frame s2
        (by rw [hs2x]; simp only [List.length_drop]; omega) h
      refine ⟨hrec.1, ?_⟩
      rw [hunf, find?_cons_false (by simp [hne]), ← hs2x]
      exact hrec.2
    case _ heq =>
      push_neg at heq
      split at h
      · exact absurd h (by simp)
      split at h
      · exact absurd h (by simp)
      case _ =>
        simp only [Except.ok.injEq, Prod.mk.injEq] at h
        obtain ⟨rfl, rfl⟩ := h
        refine ⟨heq, ?_⟩
        rw [hunf]
        exact find?_cons_true (by simp [heq])

/-- C3: whenever `readMessage` returns a frame, that frame bears the
client's bound device address (address-mismatched frames are discarded
without error and the loop reads again), and it is the first
length-delimited frame of the incoming stream whose address matches. -/
theorem readMessage_first_match (c : Client) (s : ConnState)
    (frame : List Nat) (s2 : ConnState)
    (h : readMessage c s = .ok (frame, s2)) :
    be32 frame = c.address ∧
    (parseFrames s.rStream).find? (fun f => be32 f == c.address) = some frame := by
  unfold readMessage at h
  split at h
  · exact absurd h (by simp)
  case _ resp s2x heq =>
    simp only [Except.ok.injEq, Prod.mk.injEq] at h
    obtain ⟨rfl, rfl⟩ := h
    exact readLoop_first_match _ c s resp s2x (by omega) heq

/-- a well-formed response frame body at address 1, function 4, total
length 11, one payload byte and a message id. -/
def goodBody : List Nat := [0, 0, 0, 1, 4, 11, 9, 0, 1]

/-- the frame `goodBody` completed with its little-endian checksum. -/
def goodFrame : List Nat := goodBody ++ le16bytes (crcOf goodBody)

/-- an 11-byte frame addressed to a different device (address 2). -/
def foreignFrame : List Nat := [0, 0, 0, 2, 4, 11, 0, 0, 0, 0, 0]

/-- a transport whose incoming stream holds a foreign-address frame
followed by a frame for device 1. -/
def c3conn : ConnState := { noSinkConn with rStream := foreignFrame ++ goodFrame }

/-- witness for C3: on the concrete two-frame stream, `readMessage`
skips the foreign frame and returns the first frame addressed to the
bound device. -/
theorem readMessage_first_match_witness :
    be32 goodFrame = (Client.mk 1 4294967295).address ∧
    (parseFrames c3conn.rStream).find?
      (fun f => be32 f == (Client.mk 1 4294967295).address) = some goodFrame :=
  readMessage_first_match ⟨1, 4294967295⟩ c3conn goodFrame noSinkConn (by decide)

/-! ### `Client.command` and the channel-mask operations (client.go) -/

def minFrameLen : Nat := 10
def fnError0 : Nat := 0x00
def fnReadValues : Nat := 0x01
def fnReadPulseWeight : Nat := 0x07
def fnLineTest : Nat := 0x09
def fnInputTest : Nat := 0x19

/-- Modelled from the spec: the constant `maxChanNum` is declared in a
repository file not among the provided sources; the spec reports the
observed device channel bound 32 ("observed bound 32, encoded as a bit
in a 32-bit mask").  The C8 claim does not depend on its value. -/
def maxChanNum : Nat := 32

/-- the per-element loop of `validateChannels`: a zero channel or one
above `maxChanNum` fails with the corresponding `fmt.Errorf` error. -/
def validateChannelsLoop : List Nat → Option GoErr
  | [] => none
  | ch :: rest =>
    if ch = 0 then some (.argErr 1)
    else if ch > maxChanNum then some (.argErr 2)
    else validateChannelsLoop rest

/-- `validateChannels` (client.go): an empty channel list fails
immediately; otherwise each channel is checked in order. -/
def validateChannels (chs : List Nat) : Option GoErr :=
  if chs.length = 0 then some (.argErr 0) else validateChannelsLoop chs

/-- `makeMask` (client.go): `mask += 1 << (ch - 1)` over `uint32`. -/
def makeMask (chs : List Nat) : Nat :=
  chs.foldl (fun m ch => (m + 2 ^ (ch - 1) % 4294967296) % 4294967296) 0

/-- `Client.command` (client.go): assembles
`[address:4][function:1][length:1][payload][id:2]`, sets the length
byte to `len(payload) + minFrameLen` (truncated to a byte), sends via
`writeMessage`, receives via `readMessage`, checks the response
function code, and returns the payload slice `data[6 : 6+ln]`. -/
def command (c : Client) (cmd : Nat) (payload : List Nat) (s : ConnState) :
    Except GoErr (List Nat) × Client × ConnState :=
  let c1 : Client := { c with ids := nextIdState c.ids }
  let req := be32bytes c.address ++ [cmd % 256] ++
    [(payload.length + minFrameLen) % 256] ++ payload ++ be16bytes (nextIdVal c.ids)
  match writeMessage c1 req s with
  | .error e => (.error e, c1, s)
  | .ok s1 =>
    match readMessage c1 s1 with
    | .error e => (.error e, c1, s1)
    | .ok (data, s2) =>
      if byteAt data 4 ≠ cmd then (.error .wrongFunction, c1, s2)
      else (.ok ((data.drop 6).take (byteAt data 5 - minFrameLen)), c1, s2)

/-- the per-channel `binary.Read` loop of `CurValues`: an 8-byte
little-endian float64 (carried as its bit pattern) per channel, in the
sorted channel order; an exhausted buffer yields `io.EOF`, a partial
value `io.ErrUnexpectedEOF`. -/
def readVals64 (data : List Nat) : List Nat → Except GoErr (List (Nat × Nat))
  | [] => .ok []
  | ch :: rest =>
    if data.length = 0 then .error .eofErr
    else if data.length < 8 then .error .unexpectedEOF
    else
      match readVals64 (data.drop 8) rest with
      | .error e => .error e
      | .ok vs => .ok ((ch, le64 (data.take 8)) :: vs)

/-- the per-channel `binary.Read` loop of `PulseWeight`: a 4-byte
little-endian float32 (bit pattern) per channel. -/
def readVals32 (data : List Nat) : List Nat → Except GoErr (List (Nat × Nat))
  | [] => .ok []
  | ch :: rest =>
    if data.length = 0 then .error .eofErr
    else if data.length < 4 then .error .unexpectedEOF
    else
      match readVals32 (data.drop 4) rest with
      | .error e => .error e
      | .ok vs => .ok ((ch, le32 (data.take 4)) :: vs)

/-- `sort.Slice(chs, chs[i] < chs[j])` applied when more than one
channel was requested. -/
def sortChannels (chs : List Nat) : List Nat :=
  if chs.length > 1 then chs.mergeSort (fun a b => decide (a ≤ b)) else chs

/-- `Client.CurValues` (client.go): validates the channels, sends the
32-bit mask under function 0x01, and decodes one float64 per channel
in ascending channel order. -/
def curValues (c : Client) (chs : List Nat) (s : ConnState) :
    Except GoErr (List (Nat × Nat)) × Client × ConnState :=
  match validateChannels chs with
  | some e => (.error e, c, s)
  | none =>
    match command c fnReadValues (le32bytes (makeMask chs)) s with
    | (.error e, c1, s1) => (.error e, c1, s1)
    | (.ok data, c1, s1) =>
      match readVals64 data (sortChannels chs) with
      | .error e => (.error e, c1, s1)
      | .ok vs => (.ok vs, c1, s1)

/-- `Client.PulseWeight` (client.go): validates the channels, sends
the 32-bit mask under function 0x07, and decodes one float32 per
channel in ascending channel order. -/
def pulseWeight (c : Client) (chs : List Nat) (s : ConnState) :
    Except GoErr (List (Nat × Nat)) × Client × ConnState :=
  match validateChannels chs with
  | some e => (.error e, c, s)
  | none =>
    match command c fnReadPulseWeight (le32bytes (makeMask chs)) s with
    | (.error e, c1, s1) => (.error e, c1, s1)
    | (.ok data, c1, s1) =>
      match readVals32 data (sortChannels chs) with
      | .error e => (.error e, c1, s1)
      | .ok vs => (.ok vs, c1, s1)

/-- `Client.LineTest` (client.go): validates the channels, sends the
32-bit mask under function 0x09, and decodes the 32-bit result. -/
def lineTest (c : Client) (chs : List Nat) (s : ConnState) :
    Except GoErr Nat × Client × ConnState :=
  match validateChannels chs with
  | some e => (.error e, c, s)
  | none =>
    match command c fnLineTest (le32bytes (makeMask chs)) s with
    | (.error e, c1, s1) => (.error e, c1, s1)
    | (.ok data, c1, s1) =>
      match uint32le data with
      | .error e => (.error e, c1, s1)
      | .ok v => (.ok v, c1, s1)

/-- `Client.InputTest` (client.go): validates the channels, sends the
32-bit mask under function 0x19, and decodes the 32-bit result. -/
def inputTest (c : Client) (chs : List Nat) (s : ConnState) :
    Except GoErr Nat × Client × ConnState :=
  match validateChannels chs with
  | some e => (.error e, c, s)
  | none =>
    match command c fnInputTest (le32bytes (makeMask chs)) s with
    | (.error e, c1, s1) => (.error e, c1, s1)
    | (.ok data, c1, s1) =>
      match uint32le data with
      | .error e => (.error e, c1, s1)
      | .ok v => (.ok v, c1, s1)

/-- a channel list holding a zero makes the validation loop fail. -/
theorem validateChannelsLoop_zero : ∀ l : List Nat, 0 ∈ l →
    ∃ e, validateChannelsLoop l = some e
  | ch :: rest, h => by
    unfold validateChannelsLoop
    by_cases ha : ch = 0
    · exact ⟨.argErr 1, by rw [if_pos ha]⟩
    · rw [if_neg ha]
      by_cases hb : ch > maxChanNum
      · exact ⟨.argErr 2, by rw [if_pos hb]⟩
      · rw [if_neg hb]
        refine validateChannelsLoop_zero rest ?_
        cases h with
        | head => exact absurd rfl ha
        | tail _ h => exact h

/-- an empty channel list, or one holding a zero, fails validation. -/
theorem validateChannels_err (chs : List Nat) (h : chs = [] ∨ 0 ∈ chs) :
    ∃ e, validateChannels chs = some e := by
  cases h with
  | inl h => exact ⟨.argErr 0, by rw [h]; rfl⟩
  | inr h =>
    match chs, h with
    | ch :: rest, h =>
      unfold validateChannels
      rw [if_neg (by simp)]
      exact validateChannelsLoop_zero (ch :: rest) h

/-- C8: calling `CurValues`, `PulseWeight`, `LineTest` or `InputTest`
with an empty channel list, or with any channel index equal to 0,
returns a validation error, leaves the transport state untouched (no
byte is written) and leaves the client unchanged. -/
theorem channel_ops_validate_first (c : Client) (s : ConnState) (chs : List Nat)
    (h : chs = [] ∨ 0 ∈ chs) :
    ∃ e, validateChannels chs = some e ∧
      curValues c chs s = (.error e, c, s) ∧
      pulseWeight c chs s = (.error e, c, s) ∧
      lineTest c chs s = (.error e, c, s) ∧
      inputTest c chs s = (.error e, c, s) := by
  obtain ⟨e, he⟩ := validateChannels_err chs h
  exact ⟨e, he, by unfold curValues; rw [he], by unfold pulseWeight; rw [he],
    by unfold lineTest; rw [he], by unfold inputTest; rw [he]⟩

/-- witness for C8 at the concrete channel list `[0]`: all four
operations fail with the zero-channel validation error and return the
transport exactly as given. -/
theorem channel_ops_validate_first_witness :
    validateChannels [0] = some (.argErr 1) ∧
    curValues ⟨1, 0⟩ [0] noSinkConn = (.error (.argErr 1), ⟨1, 0⟩, noSinkConn) ∧
    pulseWeight ⟨1, 0⟩ [0] noSinkConn = (.error (.argErr 1), ⟨1, 0⟩, noSinkConn) ∧
    lineTest ⟨1, 0⟩ [0] noSinkConn = (.error (.argErr 1), ⟨1, 0⟩, noSinkConn) ∧
    inputTest ⟨1, 0⟩ [0] noSinkConn = (.error (.argErr 1), ⟨1, 0⟩, noSinkConn) := by
  obtain ⟨e, he, h1, h2, h3, h4⟩ :=
    channel_ops_validate_first ⟨1, 0⟩ noSinkConn [0] (Or.inr (by simp))
  obtain rfl : GoErr.argErr 1 = e :=
    Option.some.inj ((show validateChannels [0] = some (.argErr 1) from rfl).symm.trans he)
  exact ⟨he, h1, h2, h3, h4⟩

/-! ### `NewClient` and `Discover` (client.go)

`NewClient` parses the address with `strconv.ParseInt(address, 16, 32)`
— a SIGNED 32-bit parse — and stores `uint32(i)`.  `Discover` sends the
magic discovery frame, reads a 10-byte response, checks its checksum,
extracts the big-endian 32-bit address at offset 4, renders it with
`fmt.Sprintf("%08x", address)` and hands that string to `NewClient`.
The `strconv` model collapses `ParseUint`'s intermediate 64-bit
clamping: for the error/value outcomes of a base-16, bit-size-32 parse
the reduction is exact (any digit string valued at `2^31` or more —
clamped or not — ends in `ErrRange`). -/

/-- the digit value of one character in a base-16 `ParseUint`
(`0`–`9`, `a`–`f`, `A`–`F`; everything else is a syntax error). -/
def hexDigitVal (c : Char) : Option Nat :=
  if '0' ≤ c ∧ c ≤ '9' then some (c.toNat - 48)
  else if 'a' ≤ c ∧ c ≤ 'f' then some (c.toNat - 87)
  else if 'A' ≤ c ∧ c ≤ 'F' then some (c.toNat - 55)
  else none

/-- the accumulation loop of `ParseUint` in base 16 (mathematical
value, without the 64-bit clamp — see the section comment). -/
def hexValLoop (acc : Nat) : List Char → Option Nat
  | [] => some acc
  | c :: rest =>
    match hexDigitVal c with
    | none => none
    | some d => hexValLoop (acc * 16 + d) rest

/-- the unsigned value denoted by a non-empty all-hex-digit string. -/
def hexDigitsVal : List Char → Option Nat
  | [] => none
  | c :: rest => hexValLoop 0 (c :: rest)

/-- `strconv.ParseInt(s, 16, 32)`: optional sign, non-empty hex
digits, and the signed 32-bit range check
(`un >= 1<<31` for non-negative values, `un > 1<<31` for negative). -/
def goParseInt32Hex (s : List Char) : Except GoErr Int :=
  match s with
  | [] => .error .syntaxErr
  | c0 :: rest =>
    if c0 = '-' then
      match hexDigitsVal rest with
      | none => .error .syntaxErr
      | some v => if 2 ^ 31 < v then .error .rangeErr else .ok (-(v : Int))
    else if c0 = '+' then
      match hexDigitsVal rest with
      | none => .error .syntaxErr
      | some v => if 2 ^ 31 ≤ v then .error .rangeErr else .ok (v : Int)
    else
      match hexDigitsVal (c0 :: rest) with
      | none => .error .syntaxErr
      | some v => if 2 ^ 31 ≤ v then .error .rangeErr else .ok (v : Int)

/-- `NewClient` (client.go): on parse success stores `uint32(i)` (the
two's-complement reduction modulo `2^32`) and the initial counter
`math.MaxUint32`. -/
def newClient (address : List Char) : Except GoErr Client :=
  match goParseInt32Hex address with
  | .error e => .error e
  | .ok i => .ok ⟨(i % 4294967296).toNat, 4294967295⟩

/-- one lowercase hex digit character, as `%x` renders it. -/
def hexChar (d : Nat) : Char :=
  if d < 10 then Char.ofNat (48 + d) else Char.ofNat (87 + d)

/-- `fmt.Sprintf("%08x", v)` for a 32-bit value: exactly eight
lowercase hex digits. -/
def formatHex08 (v : Nat) : List Char :=
  [hexChar (v / 268435456 % 16), hexChar (v / 16777216 % 16),
   hexChar (v / 1048576 % 16), hexChar (v / 65536 % 16),
   hexChar (v / 4096 % 16), hexChar (v / 256 % 16),
   hexChar (v / 16 % 16), hexChar (v % 16)]

/-- the magic discovery frame (encoding.go). -/
def discoveryMessage : List Nat :=
  [0xF0, 0x0F, 0x0F, 0xF0, 0x00, 0x00, 0x00, 0x00, 0x00, 0xA5, 0x44]

/-- `Discover` (client.go): sends the magic frame, flushes, logs the
request, reads a `minFrameLen`-byte response, validates its checksum,
extracts the big-endian address from bytes 4–8 and builds the client
from its `%08x` rendering.  (The returned orchestrator owns no
transport state in this model, so the final transport state is not
threaded out.) -/
def discover (s : ConnState) : Except GoErr Client :=
  match connPrepareWrite s with
  | .error e => .error e
  | .ok s0 =>
    match connWrite discoveryMessage s0 with
    | .error e => .error e
    | .ok s1 =>
      match connFlush s1 with
      | .error e => .error e
      | .ok s2 =>
        match connPrepareRead (connLogRequest s2) with
        | .error e => .error e
        | .ok s3 =>
          match connRead minFrameLen s3 with
          | .error e => .error e
          | .ok (response, _) =>
            match checkCrc response with
            | some e => .error e
            | none => newClient (formatHex08 (be32 (response.drop 4)))

/-- a hex digit character evaluates back to its digit. -/
theorem hexDigitVal_hexChar (d : Nat) (h : d < 16) :
    hexDigitVal (hexChar d) = some d := by
  interval_cases d <;> decide

/-- consuming one in-range digit multiplies the accumulator by 16. -/
theorem hexValLoop_cons (acc d : Nat) (hd : d < 16) (rest : List Char) :
    hexValLoop acc (hexChar d :: rest) = hexValLoop (acc * 16 + d) rest := by
  rw [hexValLoop, hexDigitVal_hexChar d hd]

/-- a leading non-digit makes the accumulation loop fail. -/
theorem hexValLoop_none (acc : Nat) (c : Char) (rest : List Char)
    (h : hexDigitVal c = none) : hexValLoop acc (c :: rest) = none := by
  rw [hexValLoop, h]

/-- the `%08x` rendering of a 32-bit value parses back to the value. -/
theorem hexDigitsVal_format (v : Nat) (h : v < 4294967296) :
    hexDigitsVal (formatHex08 v) = some v := by
  show hexValLoop 0 (formatHex08 v) = some v
  rw [formatHex08]
  rw [hexValLoop_cons _ _ (by omega), hexValLoop_cons _ _ (by omega),
    hexValLoop_cons _ _ (by omega), hexValLoop_cons _ _ (by omega),
    hexValLoop_cons _ _ (by omega), hexValLoop_cons _ _ (by omega),
    hexValLoop_cons _ _ (by omega), hexValLoop_cons _ _ (by omega)]
  rw [hexValLoop]
  congr 1
  omega

/-- a digit string valued at `2^31` or more parses to `ErrRange` under
the signed 32-bit parse. -/
theorem goParseInt32Hex_range (s : List Char) (v : Nat)
    (hv : hexDigitsVal s = some v) (hge : 2 ^ 31 ≤ v) :
    goParseInt32Hex s = .error .rangeErr := by
  match s with
  | [] => rw [hexDigitsVal] at hv; exact absurd hv (by simp)
  | c0 :: rest =>
    have hminus : ¬ c0 = '-' := by
      intro hc
      subst hc
      rw [hexDigitsVal, hexValLoop_none 0 _ rest (by decide)] at hv
      exact absurd hv (by simp)
    have hplus : ¬ c0 = '+' := by
      intro hc
      subst hc
      rw [hexDigitsVal, hexValLoop_none 0 _ rest (by decide)] at hv
      exact absurd hv (by simp)
    rw [goParseInt32Hex, if_neg hminus, if_neg hplus, hv]
    exact if_pos hge

/-- C9: `NewClient` rejects every hexadecimal address string denoting
a value of `2^31` or more (the address is parsed as a SIGNED 32-bit
integer), so a 32-bit device address with the high bit set is never
accepted; consequently `Discover` fails with the range error for a
device whose checksum-valid discovery response reports such an
address. -/
theorem newClient_high_address (s : ConnState) (addr : List Char) (v : Nat)
    (hv : hexDigitsVal addr = some v) (hge : 2 ^ 31 ≤ v)
    (hbytes : ∀ x ∈ s.rStream, x < 256)
    (hpw : s.prepareWriteErr = none) (hw : s.writeErr = none)
    (hf : s.flushErr = none) (hpr : s.prepareReadErr = none)
    (hlen : 10 ≤ s.rStream.length)
    (hcrc : checkCrc (s.rStream.take 10) = none)
    (haddr : 2 ^ 31 ≤ be32 ((s.rStream.take 10).drop 4)) :
    newClient addr = .error .rangeErr ∧ discover s = .error .rangeErr := by
  constructor
  · rw [newClient, goParseInt32Hex_range addr v hv hge]
  · have hnlt : ¬ s.rStream.length < 10 := by omega
    have hblt : be32 ((s.rStream.take 10).drop 4) < 4294967296 := by
      have hmem : ∀ x ∈ (s.rStream.take 10).drop 4, x < 256 := fun x hx =>
        hbytes x (List.take_subset 10 s.rStream (List.drop_subset 4 _ hx))
      have hg : ∀ i, ((s.rStream.take 10).drop 4).getD i 0 < 256 := by
        intro i
        rw [List.getD_eq_getElem?_getD]
        match hx : ((s.rStream.take 10).drop 4)[i]? with
        | none => simp
        | some x =>
          simp only [Option.getD_some]
          exact hmem x (List.getElem?_mem hx)
      have h0 := hg 0
      have h1 := hg 1
      have h2 := hg 2
      have h3 := hg 3
      unfold be32
      omega
    simp only [discover, connPrepareWrite, connWrite, connFlush,
      connLogRequest, connPrepareRead, connRead, minFrameLen,
      hpw, hw, hf, hpr, hnlt, if_false, hcrc]
    rw [newClient, goParseInt32Hex_range _
      (be32 ((s.rStream.take 10).drop 4))
      (hexDigitsVal_format _ hblt) haddr]

/-- the discovery response used in the C9 witness: a checksum-valid
10-byte frame reporting device address `0x80000000`. -/
def discoBody : List Nat := [0, 0, 0, 0, 0x80, 0, 0, 0]

/-- the full witness response with its little-endian checksum. -/
def discoResponse : List Nat := discoBody ++ le16bytes (crcOf discoBody)

/-- witness for C9: the concrete address string `"80000000"` is
rejected, and `Discover` on a transport delivering `discoResponse`
fails with the range error. -/
theorem newClient_high_address_witness :
    newClient ['8', '0', '0', '0', '0', '0', '0', '0'] = .error .rangeErr ∧
    discover { noSinkConn with rStream := discoResponse } = .error .rangeErr := by
  refine newClient_high_address { noSinkConn with rStream := discoResponse }
    ['8', '0', '0', '0', '0', '0', '0', '0'] 0x80000000
    (by decide) (by decide) ?_ rfl rfl rfl rfl (by decide) (by decide) (by decide)
  intro x hx
  fin_cases hx <;> decide

/-! ### `Client.DayLightSaving` (client.go) -/

/-- configuration parameter code `dayTimeSave` (encoding.go). -/
def dayTimeSave : Nat := 0x0001

/-- function code `fnReadSettings` (encoding.go). -/
def fnReadSettings : Nat := 0x0A

/-- `Client.param`: reads a configuration parameter via `command`
under function 0x0A with the 2-byte little-endian parameter code. -/
def param (c : Client) (name : Nat) (s : ConnState) :
    Except GoErr (List Nat) × Client × ConnState :=
  command c fnReadSettings (le16bytes name) s

/-- the body of `Client.DayLightSaving` applied to the `(data, err)`
pair received from `c.param`: Go computes
`rv := binary.LittleEndian.Uint64(data) & 0xFFFF` BEFORE consulting
`err` (the decode panics when `data` is shorter than 8 bytes), then
sets `value` only under `err != nil && rv != 0`, and returns
`(value, err)`. -/
def dayLightSavingFrom (data : List Nat) (err : Option GoErr) :
    Except GoErr (Bool × Option GoErr) :=
  match uint64le data with
  | .error e => .error e
  | .ok u =>
    .ok (if err.isSome = true ∧ u % 65536 ≠ 0 then true else false, err)

/-- `Client.DayLightSaving` composed with the parameter read; the Go
`(data, err)` pair corresponds to the `Except` outcome of `param`
(`data` is nil on a failed exchange). -/
def dayLightSaving (c : Client) (s : ConnState) :
    (Except GoErr (Bool × Option GoErr)) × Client × ConnState :=
  match param c dayTimeSave s with
  | (.error e, c1, s1) => (dayLightSavingFrom [] (some e), c1, s1)
  | (.ok data, c1, s1) => (dayLightSavingFrom data none, c1, s1)

/-- C10: on every successful parameter-read exchange (no error, at
least the 8 bytes `Uint64` needs) `DayLightSaving` returns `false`
regardless of the payload value; a `true` result is only possible when
the underlying read failed (`err != nil`); and the payload is decoded
before the error is consulted — with fewer than 8 bytes the decode
panics even when an error is already in hand.  `dayLightSaving` is
exactly this body applied to the outcome of `param`. -/
theorem dayLightSaving_false_on_success :
    (∀ data : List Nat, 8 ≤ data.length →
      dayLightSavingFrom data none = .ok (false, none)) ∧
    (∀ data err b err2, dayLightSavingFrom data err = .ok (b, err2) →
      err2 = err ∧ (b = true → err.isSome = true)) ∧
    (∀ (data : List Nat) err, data.length < 8 →
      dayLightSavingFrom data err = .error .panicErr) ∧
    (∀ c s, dayLightSaving c s =
      match param c dayTimeSave s with
      | (.error e, c1, s1) => (dayLightSavingFrom [] (some e), c1, s1)
      | (.ok data, c1, s1) => (dayLightSavingFrom data none, c1, s1)) := by
  refine ⟨?_, ?_, ?_, fun c s => rfl⟩
  · intro data h
    unfold dayLightSavingFrom uint64le
    rw [if_neg (by omega)]
    simp
  · intro data err b err2 h
    unfold dayLightSavingFrom at h
    split at h
    · exact absurd h (by simp)
    · simp only [Except.ok.injEq, Prod.mk.injEq] at h
      obtain ⟨hb, rfl⟩ := h
      refine ⟨rfl, ?_⟩
      intro hbt
      rw [hbt] at hb
      cases err with
      | some e => rfl
      | none =>
        rw [if_neg (by simp)] at hb
        exact absurd hb (by simp)
  · intro data err h
    unfold dayLightSavingFrom uint64le
    rw [if_pos h]

/-- witness for C10 at concrete inputs: an 8-byte payload with a set
low bit still yields `false` on a successful exchange; a failed
exchange with an 8-byte nonzero payload yields `true` (so the `true`
branch indeed required the error); and a 1-byte payload panics even
though an error was already in hand. -/
theorem dayLightSaving_false_on_success_witness :
    dayLightSavingFrom [1, 0, 0, 0, 0, 0, 0, 0] none = .ok (false, none) ∧
    (some (GoErr.ioErr 0) = some (GoErr.ioErr 0) ∧
      (true = true → (some (GoErr.ioErr 0)).isSome = true)) ∧
    dayLightSavingFrom [1] (some (.ioErr 0)) = .error .panicErr := by
  refine ⟨dayLightSaving_false_on_success.1 [1, 0, 0, 0, 0, 0, 0, 0] (by decide),
    dayLightSaving_false_on_success.2.1 [1, 0, 0, 0, 0, 0, 0, 0]
      (some (.ioErr 0)) true (some (.ioErr 0)) (by decide),
    dayLightSaving_false_on_success.2.2.1 [1] (some (.ioErr 0)) (by decide)⟩
